import Mathlib

/-!
Shallow embedding of the calculator modes of `src/app.py` (a Streamlit
lab-solution calculator behind a login/subscription gate).

Modelling conventions:
* Python floats are modelled as exact rationals (`ℚ`); `math.floor` is
  `Int.floor`.
* Python `round(x, k)`, applied by the app only when formatting a value
  for a result table or message, is presentational and is not modelled:
  row fields hold the exact values the code computes, and the serial
  dilution carry-forward (`current_conc = next_conc`) is exact in the
  code itself.
* The Supabase response consumed by `get_subscription_plan` is modelled
  as an `Except` value: a thrown exception is `Except.error`, a response
  is `Except.ok` with the row list, and each row's optional `plan` field
  is an `Option String` (a `data = None` response behaves as `[]`, as in
  the Python `resp.data or []`).
* Where the app keeps an input out of a branch only through a Streamlit
  widget bound (`st.number_input(..., min_value=...)`), that bound is an
  explicit guard, noted at the definition.
-/

/-- app.py lines 260-262: the vehicle fraction of the stock.  It is
`stock_vehicle_percent / 100` when the stock vehicle type is not
"Aqueous / none" and the stock vehicle percent is positive, and `0`
otherwise. -/
def vehicle_frac (vehicle_type : String) (stock_vehicle_percent : ℚ) : ℚ :=
  if vehicle_type ≠ "Aqueous / none" ∧ 0 < stock_vehicle_percent then
    stock_vehicle_percent / 100
  else 0

/-- Result record of the single dilution mode: the stock volume, the
solvent volume, the vehicle percentage, the two advisory flags the mode
can attach, and the intermediate-stock suggestion shown with the
low-volume flag. -/
structure SingleDilutionResult where
  v1_ul : ℚ
  solvent_ul : ℚ
  vehicle_percent : ℚ
  vehicle_warning : Bool
  low_volume_warning : Bool
  c_intermediate : ℚ

/-- app.py lines 334-357, the "Single dilution (C1V1 = C2V2)" branch:
`v1_ul = target_conc * well_volume / stock_conc`, solvent volume
`well_volume - v1_ul` clamped at `0`, vehicle percentage
`v1_ul * vehicle_frac / well_volume * 100`, an advisory warning when the
vehicle percentage exceeds `max_vehicle`, and a low-volume warning with
suggestion `target_conc * well_volume / min_pip` (with `min_pip = 1.0`)
when `v1_ul < min_pip`. -/
def single_dilution (stock_conc target_conc well_volume vfrac max_vehicle : ℚ) :
    SingleDilutionResult :=
  let v1_ul := target_conc * well_volume / stock_conc
  let solvent0 := well_volume - v1_ul
  let solvent_ul := if solvent0 < 0 then 0 else solvent0
  let vehicle_percent := v1_ul * vfrac / well_volume * 100
  let min_pip : ℚ := 1
  { v1_ul := v1_ul
    solvent_ul := solvent_ul
    vehicle_percent := vehicle_percent
    vehicle_warning := decide (vehicle_percent > max_vehicle)
    low_volume_warning := decide (v1_ul < min_pip)
    c_intermediate := target_conc * well_volume / min_pip }

/-- One row of the serial dilution plan (app.py lines 408-416). -/
structure SerialRow where
  step : ℕ
  from_conc : ℚ
  to_conc : ℚ
  take_prev_ul : ℚ
  add_solvent_ul : ℚ
  vehicle_percent : ℚ
  note_low : Bool

/-- app.py lines 395-418, the per-step loop of the "Serial dilutions"
branch, parametrised by the running step index `i` and the remaining
number of steps.  Each step computes `next_conc = current_conc /
dil_factor`, `v1_ul = next_conc * final_vol_each / current_conc`,
`solvent_ul = final_vol_each - v1_ul`, the vehicle percentage, and the
`< 1 µl` note, then recurses with `current_conc = next_conc`. -/
def serial_rows_aux (dil_factor final_vol_each vfrac : ℚ) :
    ℕ → ℕ → ℚ → List SerialRow
  | _, 0, _ => []
  | i, n + 1, current_conc =>
    let next_conc := current_conc / dil_factor
    let v1_ul := next_conc * final_vol_each / current_conc
    let solvent_ul := final_vol_each - v1_ul
    let vehicle_percent := v1_ul * vfrac / final_vol_each * 100
    { step := i + 1
      from_conc := current_conc
      to_conc := next_conc
      take_prev_ul := v1_ul
      add_solvent_ul := solvent_ul
      vehicle_percent := vehicle_percent
      note_low := decide (v1_ul < 1) } ::
      serial_rows_aux dil_factor final_vol_each vfrac (i + 1) n next_conc

/-- The full serial dilution plan, starting from `start_conc` with
`n_steps` rows (app.py line 396-398: `current_conc = start_conc`, loop
over `range(int(n_steps))`). -/
def serial_rows (start_conc dil_factor final_vol_each vfrac : ℚ)
    (n_steps : ℕ) : List SerialRow :=
  serial_rows_aux dil_factor final_vol_each vfrac 0 n_steps start_conc

/-- One row of the "Experiment series (plate-like)" table
(app.py lines 456-463). -/
structure SeriesRow where
  final_conc : ℚ
  v1_ul : ℚ
  solvent_ul : ℚ
  vehicle_percent : ℚ
  exceeds : Bool
  total_vol_ul : ℚ

/-- app.py lines 450-463, the per-concentration body of the experiment
series loop: `v1_ul = c * well_volume / stock_conc_uM`, `solvent_ul =
well_volume - v1_ul`, the vehicle percentage, the `OK?` flag (`⚠ > limit`
exactly when the vehicle percentage exceeds `max_vehicle`), and the total
volume `(v1_ul + solvent_ul) * reps * overfill`. -/
def series_row (well_volume stock_conc_uM vfrac max_vehicle reps overfill
    c : ℚ) : SeriesRow :=
  let v1_ul := c * well_volume / stock_conc_uM
  let solvent_ul := well_volume - v1_ul
  let vehicle_percent := v1_ul * vfrac / well_volume * 100
  let total_vol_ul := (v1_ul + solvent_ul) * reps * overfill
  { final_conc := c
    v1_ul := v1_ul
    solvent_ul := solvent_ul
    vehicle_percent := vehicle_percent
    exceeds := decide (vehicle_percent > max_vehicle)
    total_vol_ul := total_vol_ul }

/-- The experiment series table: one row per entered concentration
(app.py lines 448-463). -/
def experiment_series (well_volume stock_conc_uM vfrac max_vehicle reps
    overfill : ℚ) (concs : List ℚ) : List SeriesRow :=
  concs.map (series_row well_volume stock_conc_uM vfrac max_vehicle reps overfill)

/-- One row of the "Plate DMSO cap checker" table (app.py lines 821-826). -/
structure PlateRow where
  final_conc : ℚ
  stock_vol_ul : ℚ
  dmso_percent : ℚ
  ok : Bool

/-- app.py lines 818-826, the per-concentration body of the plate DMSO
cap checker loop: `v1_ul = c * well_volume / stock_conc_uM`,
`dmso_percent = v1_ul * vehicle_frac / well_volume * 100`, and the `OK?`
flag (`✅` exactly when `dmso_percent ≤ dmso_cap`). -/
def plate_row (well_volume stock_conc_uM vfrac dmso_cap c : ℚ) : PlateRow :=
  let v1_ul := c * well_volume / stock_conc_uM
  let dmso_percent := v1_ul * vfrac / well_volume * 100
  { final_conc := c
    stock_vol_ul := v1_ul
    dmso_percent := dmso_percent
    ok := decide (dmso_percent ≤ dmso_cap) }

/-- The plate DMSO cap checker table: one row per entered concentration
(app.py lines 816-826). -/
def plate_rows (well_volume stock_conc_uM vfrac dmso_cap : ℚ)
    (concs : List ℚ) : List PlateRow :=
  concs.map (plate_row well_volume stock_conc_uM vfrac dmso_cap)

/-- Target concentration unit of the "From solid (mg → solution)" mode
(app.py line 519). -/
inductive ConcUnit
  | uM
  | mM

/-- app.py lines 523-526: conversion of the target concentration to
mol/L (`1e-6` for µM, `1e-3` for mM). -/
def conc_to_M : ConcUnit → ℚ → ℚ
  | ConcUnit.uM, c => c * (1 / 1000000)
  | ConcUnit.mM, c => c * (1 / 1000)

/-- app.py lines 517-532, the mass-needed computation of the "From solid
(mg → solution)" branch: `m_needed_mg = C * V_L * mw * 1000` with
`C = conc_to_M unit target_conc` and `V_L = final_vol_ml / 1000`.  The
branch itself has no validity test; inputs reach it only through the
widget bounds `st.number_input(..., min_value=1.0)` for `mw` (line 518)
and `min_value=0.1` for `final_vol_ml` (line 521), modelled here as the
guard: outside those bounds no computation runs and no result exists. -/
def from_solid_mass_mg (unit : ConcUnit) (target_conc mw final_vol_ml : ℚ) :
    Option ℚ :=
  if 1 ≤ mw ∧ 1 / 10 ≤ final_vol_ml then
    some (conc_to_M unit target_conc * (final_vol_ml / 1000) * mw * 1000)
  else none

/-- app.py line 594, unit converter direction "mg/mL → mM":
`mM = mgml * 1000.0 / mw`. -/
def mgml_to_mM (mw mgml : ℚ) : ℚ :=
  mgml * 1000 / mw

/-- app.py line 598, unit converter direction "mM → mg/mL":
`mgml = mM * mw / 1000.0`. -/
def mM_to_mgml (mw mM : ℚ) : ℚ :=
  mM * mw / 1000

/-- app.py lines 783-787, the "Beer–Lambert / A280" branch: when
`epsilon > 0 and pathlength > 0` the concentration is
`absorbance / (epsilon * pathlength)`, otherwise the branch shows an
error and produces no concentration. -/
def beer_lambert (absorbance epsilon pathlength : ℚ) : Option ℚ :=
  if 0 < epsilon ∧ 0 < pathlength then
    some (absorbance / (epsilon * pathlength))
  else none

/-- app.py lines 841-848, the "Aliquot splitter" branch:
`usable_vol = total_vol - dead_vol`; when `usable_vol ≤ 0` the branch
shows an error and produces nothing, otherwise it returns
`n_aliquots = floor(usable_vol / aliquot_vol)` together with the
leftover `usable_vol - n_aliquots * aliquot_vol`. -/
def aliquot_split (total_vol aliquot_vol dead_vol : ℚ) : Option (ℤ × ℚ) :=
  let usable_vol := total_vol - dead_vol
  if usable_vol ≤ 0 then none
  else
    let n_aliquots : ℤ := ⌊usable_vol / aliquot_vol⌋
    some (n_aliquots, usable_vol - (n_aliquots : ℚ) * aliquot_vol)

/-- app.py lines 72-94, `get_subscription_plan`: a thrown backend error
is caught and yields "free"; an empty result set yields "free"; a first
row without a `plan` field yields "free"; a first row with a `plan`
field yields that plan.  The function is total: it never propagates an
error. -/
def get_subscription_plan (resp : Except Unit (List (Option String))) :
    String :=
  match resp with
  | Except.error _ => "free"
  | Except.ok data =>
    match data with
    | [] => "free"
    | row :: _ =>
      match row with
      | some plan => plan
      | none => "free"

/-! ## Helper lemmas -/

/-- The serial dilution loop produces exactly `n` rows. -/
theorem serial_rows_aux_length (dil_factor final_vol_each vfrac : ℚ) :
    ∀ (n i : ℕ) (c : ℚ),
      (serial_rows_aux dil_factor final_vol_each vfrac i n c).length = n := by
  intro n
  induction n with
  | zero => intro i c; rfl
  | succ m ih =>
    intro i c
    simp [serial_rows_aux, ih]

/-- In the serial dilution loop started at concentration `c`, the `to`
concentration of the row at position `k` is `c / dil_factor ^ (k + 1)`:
the carry-forward divides by the dilution factor once per row. -/
theorem serial_rows_aux_to_conc (dil_factor final_vol_each vfrac : ℚ) :
    ∀ (n i : ℕ) (c : ℚ) (k : ℕ), k < n →
      ((serial_rows_aux dil_factor final_vol_each vfrac i n c).get? k).map
          SerialRow.to_conc = some (c / dil_factor ^ (k + 1)) := by
  intro n
  induction n with
  | zero => intro i c k hk; omega
  | succ m ih =>
    intro i c k hk
    cases k with
    | zero =>
      simp [serial_rows_aux, pow_one]
    | succ j =>
      have hj : j < m := by omega
      have := ih (i + 1) (c / dil_factor) j hj
      rw [serial_rows_aux]
      simp only [List.get?_cons_succ]
      rw [this, div_div, mul_comm, ← pow_succ]

/-- In the serial dilution loop, when the running concentration is
positive and the dilution factor exceeds `1`, every row's add-solvent
volume is nonnegative. -/
theorem serial_rows_aux_solvent_nonneg (dil_factor final_vol_each vfrac : ℚ)
    (hF : 1 < dil_factor) (hV : 0 ≤ final_vol_each) :
    ∀ (n i : ℕ) (c : ℚ), 0 < c →
      ∀ r ∈ serial_rows_aux dil_factor final_vol_each vfrac i n c,
        0 ≤ r.add_solvent_ul := by
  have hF0 : (0 : ℚ) < dil_factor := lt_trans one_pos hF
  intro n
  induction n with
  | zero => intro i c _ r hr; simp [serial_rows_aux] at hr
  | succ m ih =>
    intro i c hc r hr
    rw [serial_rows_aux, List.mem_cons] at hr
    rcases hr with rfl | hr
    · show 0 ≤ final_vol_each - c / dil_factor * final_vol_each / c
      have hc0 : c ≠ 0 := ne_of_gt hc
      have hF0' : dil_factor ≠ 0 := ne_of_gt hF0
      have hv1 : c / dil_factor * final_vol_each / c =
          final_vol_each / dil_factor := by
        field_simp
        ring
      rw [hv1]
      have : final_vol_each / dil_factor ≤ final_vol_each :=
        div_le_self hV (le_of_lt hF)
      linarith
    · exact ih (i + 1) (c / dil_factor) (div_pos hc hF0) r hr

/-- In the serial dilution loop run with vehicle fraction `0`, every
row's vehicle percentage is `0`. -/
theorem serial_rows_aux_vehicle_zero (dil_factor final_vol_each : ℚ) :
    ∀ (n i : ℕ) (c : ℚ),
      ∀ r ∈ serial_rows_aux dil_factor final_vol_each 0 i n c,
        r.vehicle_percent = 0 := by
  intro n
  induction n with
  | zero => intro i c r hr; simp [serial_rows_aux] at hr
  | succ m ih =>
    intro i c r hr
    rw [serial_rows_aux, List.mem_cons] at hr
    rcases hr with rfl | hr
    · show c / dil_factor * final_vol_each / c * 0 / final_vol_each * 100 = 0
      ring
    · exact ih (i + 1) (c / dil_factor) r hr

/-! ## Claims -/

/-- C1: in single-dilution mode, for all positive stock concentration
`c1`, target concentration `c2` and final volume `v2` with `c1 ≥ c2`
(same units), the computed stock volume equals `(c2 * v2) / c1`, is at
most `v2`, and stock volume plus solvent volume equals `v2` exactly. -/
theorem single_dilution_c1v1 (c1 c2 v2 vfrac maxv : ℚ)
    (hc1 : 0 < c1) (hc2 : 0 < c2) (hv2 : 0 < v2) (hle : c2 ≤ c1) :
    (single_dilution c1 c2 v2 vfrac maxv).v1_ul = c2 * v2 / c1 ∧
    (single_dilution c1 c2 v2 vfrac maxv).v1_ul ≤ v2 ∧
    (single_dilution c1 c2 v2 vfrac maxv).v1_ul +
      (single_dilution c1 c2 v2 vfrac maxv).solvent_ul = v2 := by
  have hv1 : c2 * v2 / c1 ≤ v2 := by
    rw [div_le_iff₀ hc1]
    calc c2 * v2 ≤ c1 * v2 := mul_le_mul_of_nonneg_right hle hv2.le
    _ = v2 * c1 := mul_comm _ _
  have hnotlt : ¬ (v2 - c2 * v2 / c1 < 0) := by linarith
  refine ⟨by simp [single_dilution], ?_, ?_⟩
  · have : (single_dilution c1 c2 v2 vfrac maxv).v1_ul = c2 * v2 / c1 := by
      simp [single_dilution]
    rw [this]; exact hv1
  · show c2 * v2 / c1 +
        (if v2 - c2 * v2 / c1 < 0 then 0 else v2 - c2 * v2 / c1) = v2
    rw [if_neg hnotlt]
    ring

/-- Witness for C1, the spec's example: stock 25 mM, target 4 mM, well
volume 300 µl give a stock volume of 48 µl, at most 300 µl, and a
solvent volume of 252 µl. -/
theorem single_dilution_c1v1_witness :
    (single_dilution 25 4 300 0 (1/10)).v1_ul = 48 ∧
    (single_dilution 25 4 300 0 (1/10)).v1_ul ≤ 300 ∧
    (single_dilution 25 4 300 0 (1/10)).solvent_ul = 252 := by
  refine ⟨by norm_num [single_dilution], ?_, by norm_num [single_dilution]⟩
  exact (single_dilution_c1v1 25 4 300 0 (1/10) (by norm_num) (by norm_num)
    (by norm_num) (by norm_num)).2.1

/-- C4: the unit converter is a round trip: for every molecular weight
`mw > 0`, converting a mg/mL value to mM and back with the same `mw`
returns the original value exactly (over the exact-rational embedding
of the float arithmetic). -/
theorem unit_converter_round_trip (mw x : ℚ) (h : 0 < mw) :
    mM_to_mgml mw (mgml_to_mM mw x) = x := by
  have hne : mw ≠ 0 := ne_of_gt h
  rw [mgml_to_mM, mM_to_mgml]
  field_simp

/-- Witness for C4: round trip at molecular weight 2 and value 3. -/
theorem unit_converter_round_trip_witness :
    (0 : ℚ) < 2 ∧ mM_to_mgml 2 (mgml_to_mM 2 3) = 3 :=
  ⟨by norm_num, unit_converter_round_trip 2 3 (by norm_num)⟩

/-- C5: in Beer–Lambert mode, for every absorbance `A ≥ 0`, when the
extinction coefficient and the pathlength are positive the computed
concentration is `A / (epsilon * pathlength)`; the spec's example
(A = 0.5, ε = 50000, pathlength = 1) yields 1.0e-5 M; and when
`epsilon ≤ 0` or `pathlength ≤ 0` the branch produces no concentration. -/
theorem beer_lambert_spec (A epsilon pathlength : ℚ) (hA : 0 ≤ A) :
    (0 < epsilon → 0 < pathlength →
      beer_lambert A epsilon pathlength =
        some (A / (epsilon * pathlength))) ∧
    (epsilon ≤ 0 ∨ pathlength ≤ 0 →
      beer_lambert A epsilon pathlength = none) ∧
    beer_lambert (1/2) 50000 1 = some (1/100000) := by
  refine ⟨?_, ?_, ?_⟩
  · intro he hp
    rw [beer_lambert, if_pos ⟨he, hp⟩]
  · intro h
    rw [beer_lambert, if_neg]
    rintro ⟨he, hp⟩
    rcases h with h | h
    · linarith
    · linarith
  · rw [beer_lambert, if_pos (by norm_num)]
    norm_num

/-- Witness for C5: the example input (absorbance 1/2, ε 50000,
pathlength 1) succeeds with 1/2 / (50000 * 1), and ε = 0 fails. -/
theorem beer_lambert_spec_witness :
    (0 : ℚ) ≤ 1/2 ∧
    beer_lambert (1/2) 50000 1 = some ((1/2) / (50000 * 1)) ∧
    beer_lambert (1/2) 0 1 = none :=
  ⟨by norm_num,
   (beer_lambert_spec (1/2) 50000 1 (by norm_num)).1 (by norm_num) (by norm_num),
   (beer_lambert_spec (1/2) 0 1 (by norm_num)).2.1 (Or.inl (by norm_num))⟩

/-- C6: `get_subscription_plan` returns the stored plan string when the
first row of the backend response has one, returns "free" on every
lookup failure (thrown backend error, empty result set, or missing plan
field), and — being a total function on response values — never
propagates an error to its caller: every response yields either "free"
or the stored plan of the first row. -/
theorem get_subscription_plan_spec (p : String) (rest : List (Option String)) :
    get_subscription_plan (Except.ok (some p :: rest)) = p ∧
    get_subscription_plan (Except.error ()) = "free" ∧
    get_subscription_plan (Except.ok []) = "free" ∧
    get_subscription_plan (Except.ok (none :: rest)) = "free" ∧
    ∀ resp : Except Unit (List (Option String)),
      get_subscription_plan resp = "free" ∨
      ∃ q rest2, resp = Except.ok (some q :: rest2) ∧
        get_subscription_plan resp = q := by
  refine ⟨rfl, rfl, rfl, rfl, ?_⟩
  intro resp
  rcases resp with e | data
  · exact Or.inl rfl
  · cases data with
    | nil => exact Or.inl rfl
    | cons row rest2 =>
      cases row with
      | none => exact Or.inl rfl
      | some q => exact Or.inr ⟨q, rest2, rfl, rfl⟩

/-- C2: in serial-dilutions mode, for every positive start concentration,
dilution factor greater than 1 and step count `N ≥ 1`, the `to`
concentration of row `N` — the value the loop carries forward from row to
row — equals `start_conc / dil_factor ^ N`. -/
theorem serial_to_conc_after_n (start_conc dil_factor final_vol_each vfrac : ℚ)
    (N : ℕ) (hF : 1 < dil_factor) (hs : 0 < start_conc) (hN : 1 ≤ N) :
    ((serial_rows start_conc dil_factor final_vol_each vfrac N).get? (N - 1)).map
        SerialRow.to_conc = some (start_conc / dil_factor ^ N) := by
  have h := serial_rows_aux_to_conc dil_factor final_vol_each vfrac N 0
    start_conc (N - 1) (by omega)
  rw [serial_rows, h, Nat.sub_add_cancel hN]

/-- Witness for C2: starting at 25 with factor 2, the second row's `to`
concentration is 25 / 2² = 6.25. -/
theorem serial_to_conc_after_n_witness :
    (1 : ℚ) < 2 ∧
    ((serial_rows 25 2 100 0 2).get? (2 - 1)).map SerialRow.to_conc =
      some (25 / 2 ^ 2) :=
  ⟨by norm_num,
   serial_to_conc_after_n 25 2 100 0 2 (by norm_num) (by norm_num) (by norm_num)⟩

/-- C3: in aliquot-splitter mode with positive aliquot size, whenever the
dead volume is below the total volume the branch returns the aliquot
count `floor((total - dead) / aliquot)` and a leftover with
`n * aliquot + leftover = total - dead` and `0 ≤ leftover < aliquot`;
and whenever the dead volume is at least the total volume the branch
fails with no aliquot count or leftover. -/
theorem aliquot_split_spec (total_vol aliquot_vol dead_vol : ℚ)
    (ha : 0 < aliquot_vol) :
    (dead_vol < total_vol →
      aliquot_split total_vol aliquot_vol dead_vol =
        some (⌊(total_vol - dead_vol) / aliquot_vol⌋,
          (total_vol - dead_vol) -
            (⌊(total_vol - dead_vol) / aliquot_vol⌋ : ℚ) * aliquot_vol) ∧
      (⌊(total_vol - dead_vol) / aliquot_vol⌋ : ℚ) * aliquot_vol +
        ((total_vol - dead_vol) -
          (⌊(total_vol - dead_vol) / aliquot_vol⌋ : ℚ) * aliquot_vol) =
        total_vol - dead_vol ∧
      0 ≤ (total_vol - dead_vol) -
        (⌊(total_vol - dead_vol) / aliquot_vol⌋ : ℚ) * aliquot_vol ∧
      (total_vol - dead_vol) -
        (⌊(total_vol - dead_vol) / aliquot_vol⌋ : ℚ) * aliquot_vol <
        aliquot_vol) ∧
    (total_vol ≤ dead_vol →
      aliquot_split total_vol aliquot_vol dead_vol = none) := by
  have hane : aliquot_vol ≠ 0 := ne_of_gt ha
  constructor
  · intro hlt
    have husable : ¬ (total_vol - dead_vol ≤ 0) := by linarith
    refine ⟨?_, by ring, ?_, ?_⟩
    · rw [aliquot_split]
      simp only [husable, if_false]
    · have hfl : (⌊(total_vol - dead_vol) / aliquot_vol⌋ : ℚ) ≤
          (total_vol - dead_vol) / aliquot_vol :=
        Int.floor_le _
      have := mul_le_mul_of_nonneg_right hfl ha.le
      rw [div_mul_cancel₀ _ hane] at this
      linarith
    · have hfl : (total_vol - dead_vol) / aliquot_vol <
          (⌊(total_vol - dead_vol) / aliquot_vol⌋ : ℚ) + 1 :=
        Int.lt_floor_add_one _
      have := mul_lt_mul_of_pos_right hfl ha
      rw [div_mul_cancel₀ _ hane] at this
      nlinarith
  · intro hge
    rw [aliquot_split]
    simp only [if_pos (by linarith : total_vol - dead_vol ≤ 0)]

/-- Witness for C3: 2 mL split into 0.1 mL aliquots with no dead volume
succeeds, and total 0.5 mL with dead volume 1 mL fails. -/
theorem aliquot_split_spec_witness :
    aliquot_split 2 (1/10) 0 =
      some (⌊((2 : ℚ) - 0) / (1/10)⌋,
        ((2 : ℚ) - 0) - (⌊((2 : ℚ) - 0) / (1/10)⌋ : ℚ) * (1/10)) ∧
    aliquot_split (1/2) (1/10) 1 = none :=
  ⟨((aliquot_split_spec 2 (1/10) 0 (by norm_num)).1 (by norm_num)).1,
   (aliquot_split_spec (1/2) (1/10) 1 (by norm_num)).2 (by norm_num)⟩

/-- C7: the vehicle-percentage check is `(v1 * vfrac / V) * 100`
compared against the configured cap, and it is advisory only: for every
input — over-cap ones included — the single-dilution volumes are still
computed, with the over-cap condition recorded only in the warning flag,
and every experiment-series row is still fully computed with the
over-cap condition recorded only in its `exceeds` flag. -/
theorem vehicle_check_advisory (stock_conc target_conc well_volume vfrac
    max_vehicle reps overfill : ℚ) (concs : List ℚ) :
    (single_dilution stock_conc target_conc well_volume vfrac
        max_vehicle).vehicle_percent =
      (single_dilution stock_conc target_conc well_volume vfrac
        max_vehicle).v1_ul * vfrac / well_volume * 100 ∧
    (single_dilution stock_conc target_conc well_volume vfrac
        max_vehicle).vehicle_warning =
      decide ((single_dilution stock_conc target_conc well_volume vfrac
        max_vehicle).vehicle_percent > max_vehicle) ∧
    (single_dilution stock_conc target_conc well_volume vfrac
        max_vehicle).v1_ul = target_conc * well_volume / stock_conc ∧
    experiment_series well_volume stock_conc vfrac max_vehicle reps
        overfill concs =
      concs.map (fun c =>
        { final_conc := c
          v1_ul := c * well_volume / stock_conc
          solvent_ul := well_volume - c * well_volume / stock_conc
          vehicle_percent :=
            c * well_volume / stock_conc * vfrac / well_volume * 100
          exceeds := decide
            (c * well_volume / stock_conc * vfrac / well_volume * 100 >
              max_vehicle)
          total_vol_ul :=
            (c * well_volume / stock_conc +
              (well_volume - c * well_volume / stock_conc)) *
              reps * overfill }) :=
  ⟨rfl, rfl, rfl, rfl⟩

/-- C8 counterexample: a molecular weight of 0.5 g/mol and a final
volume of 20 mL are both positive, yet the mass-to-solution mode
produces no `mass_needed` result: the form's widget bound
(`min_value=1.0` on the molecular weight) keeps the input out of the
branch, so the claim "for positive MW and volume the mass needed equals
C * V * MW" fails at this input. -/
theorem from_solid_positive_mw_no_result :
    (0 : ℚ) < 1/2 ∧ (0 : ℚ) < 20 ∧
    from_solid_mass_mg ConcUnit.uM 100 (1/2) 20 = none := by
  refine ⟨by norm_num, by norm_num, ?_⟩
  rw [from_solid_mass_mg, if_neg]
  rintro ⟨h1, _⟩
  norm_num at h1

/-- C8 (amended): in mass-to-solution mode, every input below the form
minima — molecular weight below 1 g/mol or final volume below 0.1 mL,
which covers in particular every non-positive molecular weight or
volume — is rejected with no `mass_needed` result, and for accepted
inputs the mass needed equals `C * V * MW` after unit conversion. -/
theorem from_solid_mass_spec (unit : ConcUnit) (target_conc mw
    final_vol_ml : ℚ) :
    (mw < 1 ∨ final_vol_ml < 1/10 →
      from_solid_mass_mg unit target_conc mw final_vol_ml = none) ∧
    (mw ≤ 0 ∨ final_vol_ml ≤ 0 →
      from_solid_mass_mg unit target_conc mw final_vol_ml = none) ∧
    (1 ≤ mw → 1/10 ≤ final_vol_ml →
      from_solid_mass_mg unit target_conc mw final_vol_ml =
        some (conc_to_M unit target_conc * (final_vol_ml / 1000) * mw * 1000)) := by
  have hrej : mw < 1 ∨ final_vol_ml < 1/10 →
      from_solid_mass_mg unit target_conc mw final_vol_ml = none := by
    intro h
    rw [from_solid_mass_mg, if_neg]
    rintro ⟨h1, h2⟩
    rcases h with h | h
    · linarith
    · linarith
  refine ⟨hrej, ?_, ?_⟩
  · intro h
    apply hrej
    rcases h with h | h
    · exact Or.inl (by linarith)
    · exact Or.inr (by linarith)
  · intro h1 h2
    rw [from_solid_mass_mg, if_pos ⟨h1, h2⟩]

/-- Witness for C8's amended theorem: molecular weight 284.44 and
volume 20 mL succeed with the `C * V * MW` product, while the positive
below-minimum molecular weight 0.9 g/mol, the below-minimum volume
0.05 mL, and the non-positive molecular weight −1 are all rejected. -/
theorem from_solid_mass_spec_witness :
    from_solid_mass_mg ConcUnit.uM 100 (28444/100) 20 =
      some (conc_to_M ConcUnit.uM 100 * (20 / 1000) * (28444/100) * 1000) ∧
    from_solid_mass_mg ConcUnit.uM 100 (9/10) 20 = none ∧
    from_solid_mass_mg ConcUnit.uM 100 (28444/100) (1/20) = none ∧
    from_solid_mass_mg ConcUnit.uM 100 (-1) 20 = none :=
  ⟨(from_solid_mass_spec ConcUnit.uM 100 (28444/100) 20).2.2 (by norm_num)
      (by norm_num),
   (from_solid_mass_spec ConcUnit.uM 100 (9/10) 20).1 (Or.inl (by norm_num)),
   (from_solid_mass_spec ConcUnit.uM 100 (28444/100) (1/20)).1
      (Or.inr (by norm_num)),
   (from_solid_mass_spec ConcUnit.uM 100 (-1) 20).2.1 (Or.inl (by norm_num))⟩

/-- C9: the reported solvent volume is never negative: single dilution
clamps a negative computed solvent volume to zero (its solvent output is
nonnegative for every input, and exactly zero whenever the unclamped
value is negative), every serial-dilution row's add-solvent value is
nonnegative given a dilution factor above 1 and a positive start
concentration; and single dilution flags any stock volume below the
1 µl minimum pipettable volume and suggests the intermediate
concentration `target_conc * well_volume / 1`. -/
theorem solvent_nonneg_and_min_pip (stock_conc target_conc well_volume
    vfrac max_vehicle start_conc dil_factor final_vol_each : ℚ) (n : ℕ)
    (hF : 1 < dil_factor) (hs : 0 < start_conc) (hV : 0 ≤ final_vol_each) :
    0 ≤ (single_dilution stock_conc target_conc well_volume vfrac
      max_vehicle).solvent_ul ∧
    (well_volume - (single_dilution stock_conc target_conc well_volume
        vfrac max_vehicle).v1_ul < 0 →
      (single_dilution stock_conc target_conc well_volume vfrac
        max_vehicle).solvent_ul = 0) ∧
    (∀ r ∈ serial_rows start_conc dil_factor final_vol_each vfrac n,
      0 ≤ r.add_solvent_ul) ∧
    (single_dilution stock_conc target_conc well_volume vfrac
        max_vehicle).low_volume_warning =
      decide ((single_dilution stock_conc target_conc well_volume vfrac
        max_vehicle).v1_ul < 1) ∧
    (single_dilution stock_conc target_conc well_volume vfrac
        max_vehicle).c_intermediate = target_conc * well_volume / 1 := by
  refine ⟨?_, ?_, ?_, rfl, rfl⟩
  · show 0 ≤ if well_volume - target_conc * well_volume / stock_conc < 0
        then 0 else well_volume - target_conc * well_volume / stock_conc
    split
    · exact le_refl 0
    · linarith [not_lt.1 (by assumption :
        ¬ well_volume - target_conc * well_volume / stock_conc < 0)]
  · intro hneg
    show (if well_volume - target_conc * well_volume / stock_conc < 0
        then 0 else well_volume - target_conc * well_volume / stock_conc) = 0
    exact if_pos hneg
  · exact serial_rows_aux_solvent_nonneg dil_factor final_vol_each vfrac
      hF hV n 0 start_conc hs

/-- Witness for C9 at concrete inputs: stock 25, target 40 (so the raw
solvent volume would be negative), well volume 300, and a 3-step 1:2
serial dilution from 25 in 100 µl. -/
theorem solvent_nonneg_and_min_pip_witness :
    (1 : ℚ) < 2 ∧ (0 : ℚ) < 25 ∧
    0 ≤ (single_dilution 25 40 300 0 (1/10)).solvent_ul ∧
    (single_dilution 25 40 300 0 (1/10)).solvent_ul = 0 := by
  have h := solvent_nonneg_and_min_pip 25 40 300 0 (1/10) 25 2 100 3
    (by norm_num) (by norm_num) (by norm_num)
  refine ⟨by norm_num, by norm_num, h.1, h.2.1 ?_⟩
  norm_num [single_dilution]

/-- C10 (implicit): with vehicle type "Aqueous / none" or a zero stock
vehicle percent the vehicle fraction is 0, and then every mode that
reports a vehicle/DMSO percentage reports exactly 0: single dilution
reports 0 % and its over-cap warning is off (the configured cap being
nonnegative, as the cap widgets enforce), every serial-dilution row
reports 0 %, every experiment-series row reports 0 % with its `exceeds`
flag off, and every plate-DMSO-checker row reports 0 % with its `OK?`
flag on — regardless of concentrations, volumes, replicate counts or
the configured caps. -/
theorem no_vehicle_no_warning (vehicle_type : String) (pct stock_conc
    target_conc well_volume max_vehicle dmso_cap reps overfill start_conc
    dil_factor final_vol_each : ℚ) (n : ℕ) (concs : List ℚ)
    (hmv : 0 ≤ max_vehicle) (hcap : 0 ≤ dmso_cap) :
    vehicle_frac "Aqueous / none" pct = 0 ∧
    vehicle_frac vehicle_type 0 = 0 ∧
    (single_dilution stock_conc target_conc well_volume 0
      max_vehicle).vehicle_percent = 0 ∧
    (single_dilution stock_conc target_conc well_volume 0
      max_vehicle).vehicle_warning = false ∧
    (∀ r ∈ serial_rows start_conc dil_factor final_vol_each 0 n,
      r.vehicle_percent = 0) ∧
    (∀ r ∈ experiment_series well_volume stock_conc 0 max_vehicle reps
        overfill concs, r.vehicle_percent = 0 ∧ r.exceeds = false) ∧
    (∀ r ∈ plate_rows well_volume stock_conc 0 dmso_cap concs,
      r.dmso_percent = 0 ∧ r.ok = true) := by
  have hzero : ∀ a b : ℚ, a * 0 / b * 100 = 0 := by
    intro a b; ring
  refine ⟨?_, ?_, hzero _ _, ?_, ?_, ?_, ?_⟩
  · rw [vehicle_frac, if_neg]
    rintro ⟨h, _⟩
    exact h rfl
  · rw [vehicle_frac, if_neg]
    rintro ⟨_, h⟩
    exact lt_irrefl 0 h
  · show decide (target_conc * well_volume / stock_conc * 0 /
        well_volume * 100 > max_vehicle) = false
    rw [hzero]
    exact decide_eq_false (not_lt.2 hmv)
  · exact serial_rows_aux_vehicle_zero dil_factor final_vol_each n 0
      start_conc
  · intro r hr
    rcases List.mem_map.1 hr with ⟨c, _, rfl⟩
    refine ⟨hzero _ _, ?_⟩
    show decide (c * well_volume / stock_conc * 0 / well_volume * 100 >
      max_vehicle) = false
    rw [hzero]
    exact decide_eq_false (not_lt.2 hmv)
  · intro r hr
    rcases List.mem_map.1 hr with ⟨c, _, rfl⟩
    refine ⟨hzero _ _, ?_⟩
    show decide (c * well_volume / stock_conc * 0 / well_volume * 100 ≤
      dmso_cap) = true
    rw [hzero]
    exact decide_eq_true hcap

/-- Witness for C10 at concrete inputs: with a DMSO vehicle type but a
zero vehicle fraction, single dilution at stock 25, target 4, well
volume 300 and cap 0.1 % reports 0 % vehicle and no warning. -/
theorem no_vehicle_no_warning_witness :
    (0 : ℚ) ≤ 1/10 ∧
    vehicle_frac "DMSO" 0 = 0 ∧
    (single_dilution 25 4 300 0 (1/10)).vehicle_percent = 0 ∧
    (single_dilution 25 4 300 0 (1/10)).vehicle_warning = false := by
  have h := no_vehicle_no_warning "DMSO" 100 25 4 300 (1/10) (1/10) 3
    (11/10) 25 2 100 5 [1, 10] (by norm_num) (by norm_num)
  exact ⟨by norm_num, h.2.1, h.2.2.1, h.2.2.2.1⟩
